import Mathlib

/-!
Verification of the execution core of the soroban-debugger repository.

The Rust source is shallowly embedded: strings are lists of characters
(Rust `str` comparison is byte-lexicographic, which on UTF-8 agrees with
code-point order), `HashMap<String, String>` values are association lists,
fallible functions return `Except`, and calls into external crates (the
soroban host, serde's JSON parser, the WASM section reader in
`crate::utils::wasm`, which is not part of the sources under study) are
passed in as explicit arguments carrying their outcome.
-/

/-- Rust strings, embedded as lists of characters. -/
abbrev Str := List Char

/-- Decimal digits of a natural number (Rust `format!` of an unsigned integer). -/
def natToStr (n : Nat) : Str := (Nat.repr n).data

/-- Decimal form of a signed integer (Rust `format!` of a signed integer). -/
def intToStr (i : Int) : Str :=
  if i < 0 then '-' :: natToStr i.natAbs else natToStr i.natAbs

/-- Rust `char::is_whitespace`: membership in the Unicode White_Space set. -/
def isWsChar (c : Char) : Bool :=
  [9, 10, 11, 12, 13, 32, 133, 160, 5760, 8192, 8193, 8194, 8195, 8196, 8197,
   8198, 8199, 8200, 8201, 8202, 8232, 8233, 8239, 8287, 12288].contains c.toNat

/-- Rust `s.trim().is_empty()`: every character is whitespace. -/
def allWs (s : Str) : Bool := s.all isWsChar

/-- Rust `str::starts_with` for a string pattern. -/
def startsWith (pat s : Str) : Bool := List.isPrefixOf pat s

/-- Rust `str::strip_prefix` for a string pattern. -/
def stripPre : Str → Str → Option Str
  | [], s => some s
  | _ :: _, [] => none
  | p :: ps, c :: cs => if c = p then stripPre ps cs else none

/-- Rust `str::strip_suffix` for a single-character pattern. -/
def stripSufChar (c : Char) (s : Str) : Option Str :=
  match s.reverse with
  | [] => none
  | x :: xs => if x = c then some xs.reverse else none

/-- Rust `str` ordering: lexicographic on the character sequence. -/
def strCmp : Str → Str → Ordering
  | [], [] => .eq
  | [], _ :: _ => .lt
  | _ :: _, [] => .gt
  | a :: xs, b :: ys =>
    if a.toNat < b.toNat then .lt
    else if b.toNat < a.toNat then .gt
    else strCmp xs ys

/-- Numeric value of an ASCII decimal digit, as in Rust `char::to_digit(10)`. -/
def digitVal (c : Char) : Option Nat :=
  if '0' ≤ c ∧ c ≤ '9' then some (c.toNat - '0'.toNat) else none

/-- Accumulate decimal digits left to right; any non-digit character fails. -/
def digitsToNatAux : Str → Nat → Option Nat
  | [], acc => some acc
  | c :: cs, acc =>
    match digitVal c with
    | none => none
    | some d => digitsToNatAux cs (acc * 10 + d)

/-- Parse a non-empty all-digit string into a natural number. -/
def digitsToNat : Str → Option Nat
  | [] => none
  | c :: cs => digitsToNatAux (c :: cs) 0

/-- Rust `str::parse::<i128>`: optional sign, then one or more ASCII decimal
digits, rejecting values outside the signed 128-bit range. -/
def parseI128 (s : Str) : Option Int :=
  match s with
  | '+' :: rest =>
    (digitsToNat rest).bind fun n =>
      if (n : Int) ≤ 2 ^ 127 - 1 then some (n : Int) else none
  | '-' :: rest =>
    (digitsToNat rest).bind fun n =>
      if (n : Int) ≤ 2 ^ 127 then some (-(n : Int)) else none
  | rest =>
    (digitsToNat rest).bind fun n =>
      if (n : Int) ≤ 2 ^ 127 - 1 then some (n : Int) else none

/-- JSON documents (`serde_json::Value`); numbers are restricted to the
integral values the debugger's claims exercise, and objects keep field order
as an association list. -/
inductive Json where
  | null : Json
  | bool (b : Bool) : Json
  | num (n : Int) : Json
  | str (s : Str) : Json
  | arr (elems : List Json) : Json
  | obj (fields : List (Str × Json)) : Json

/-- Model of `serde_json::Value::get` on an object key; `none` on non-objects. -/
def jsonGet (v : Json) (key : Str) : Option Json :=
  match v with
  | .obj kvs => List.lookup key kvs
  | _ => none

/-- The left brace character, `\x7b`. -/
def lb : Char := Char.ofNat 123

/-- The right brace character, `\x7d`. -/
def rb : Char := Char.ofNat 125

/-- The double-quote character. -/
def qu : Char := Char.ofNat 34

/-- The apostrophe character. -/
def ap : Char := Char.ofNat 39

/-- The backslash character. -/
def bs : Char := Char.ofNat 92

/-- JSON string escaping for the quote and backslash characters. -/
def escapeChar (c : Char) : Str :=
  if c = qu then [bs, qu] else if c = bs then [bs, bs] else [c]

mutual

/-- Compact serialisation of a JSON document (`serde_json::to_string`). -/
def Json.toStr : Json → Str
  | .null => "null".data
  | .bool true => "true".data
  | .bool false => "false".data
  | .num n => intToStr n
  | .str s => qu :: (s.map escapeChar).flatten ++ [qu]
  | .arr xs => '[' :: Json.listToStr xs ++ [']']
  | .obj kvs => lb :: Json.objToStr kvs ++ [rb]

/-- Comma-separated serialisation of array elements. -/
def Json.listToStr : List Json → Str
  | [] => []
  | [x] => x.toStr
  | x :: y :: xs => x.toStr ++ ',' :: Json.listToStr (y :: xs)

/-- Comma-separated serialisation of object fields. -/
def Json.objToStr : List (Str × Json) → Str
  | [] => []
  | [(k, v)] => qu :: (k.map escapeChar).flatten ++ [qu] ++ ':' :: v.toStr
  | (k, v) :: f :: kvs =>
    qu :: (k.map escapeChar).flatten ++ [qu] ++ ':' :: v.toStr ++ ',' :: Json.objToStr (f :: kvs)

end

/-- From `src/runtime/parser.rs`: `json_type_name`. -/
def jsonTypeName (v : Json) : Str :=
  match v with
  | .null => "null".data
  | .bool _ => "boolean".data
  | .num _ => "number".data
  | .str _ => "string".data
  | .arr _ => "array".data
  | .obj _ => "object".data

/-- The object key "type". -/
def tyKey : Str := "type".data

/-- The object key "value". -/
def valKey : Str := "value".data

/-- The object key "arity". -/
def arKey : Str := "arity".data

/-- From `src/runtime/parser.rs`: `is_typed_annotation`, an object carrying both a
"type" and a "value" field. -/
def isTypedAnnot (v : Json) : Bool :=
  match v with
  | .obj kvs => (List.lookup tyKey kvs).isSome && (List.lookup valKey kvs).isSome
  | _ => false

/-- Modelled from the spec (the reader in `crate::utils::wasm` is not under
`src/`): a contract-spec parameter, a named parameter with a surface type
name such as `Option<T>` or `Tuple<T1,T2>`. Its shape is forced by the field
accesses `param.name` and `param.type_name` in `src/runtime/parser.rs`. -/
structure SpecParam where
  name : Str
  type_name : Str

/-- Modelled from the spec (the reader in `crate::utils::wasm` is not under
`src/`): a contract-spec function signature, identified by name, carrying the
ordered contract-spec parameters used by the argument normaliser. -/
structure SpecFunction where
  name : Str
  params : List SpecParam

/-- The lookup `signatures.into_iter().find(|sig| sig.name == function)` from
`normalize_args_for_function`. -/
def findSig (signatures : List SpecFunction) (function : Str) : Option SpecFunction :=
  signatures.find? fun sig => sig.name == function

/-- The error taxonomy of the debugger (`DebuggerError`), restricted to the
variants the embedded code constructs. -/
inductive DebuggerError where
  | InvalidFunction (name : Str)
  | InvalidArguments (msg : Str)
  | ExecutionError (msg : Str)

/-- The pattern "Tuple<". -/
def tupPre : Str := "Tuple<".data

/-- The pattern "Option<". -/
def optPre : Str := "Option<".data

/-- The comma-counting scan of `tuple_arity_from_type_name`: depth is bumped
at `<`, saturatingly decremented at `>`, and a comma at depth zero bumps the
arity. -/
def arityScan : Str → Nat → Nat → Nat
  | [], _, arity => arity
  | c :: cs, depth, arity =>
    if c = '<' then arityScan cs (depth + 1) arity
    else if c = '>' then arityScan cs (depth - 1) arity
    else if c = ',' then
      (if depth = 0 then arityScan cs depth (arity + 1) else arityScan cs depth arity)
    else arityScan cs depth arity

/-- From `src/runtime/parser.rs`: `tuple_arity_from_type_name` strips the
`Tuple<` ... `>` delimiters, answer 0 for a blank interior, else one plus the
number of top-level commas. -/
def tuple_arity_from_type_name (type_name : Str) : Option Nat :=
  match stripPre tupPre type_name with
  | none => none
  | some rest =>
    match stripSufChar '>' rest with
    | none => none
    | some inner =>
      if allWs inner then some 0 else some (arityScan inner 0 1)

example : tuple_arity_from_type_name "Tuple<U32, Symbol>".data = some 2 := by decide
example : tuple_arity_from_type_name "Tuple<U32, Option<Vec<Symbol>>, Map<U32, String>>".data = some 3 := by decide
example : tuple_arity_from_type_name "Tuple<>".data = some 0 := by decide
example : tuple_arity_from_type_name "Tuple<  >".data = some 0 := by decide
example : tuple_arity_from_type_name "Vec<U32>".data = none := by decide

/-- The "Invalid tuple type in function spec" message of the normaliser. -/
def msgInvalidTupleSpec (param : SpecParam) : Str :=
  "Invalid tuple type in function spec for ".data ++ [ap] ++ param.name ++ [ap]
    ++ ": ".data ++ param.type_name

/-- The "expects tuple" message of the normaliser. -/
def msgExpectsTuple (param : SpecParam) (arity : Nat) (arg : Json) : Str :=
  "Argument ".data ++ [ap] ++ param.name ++ [ap] ++ " expects tuple with ".data
    ++ natToStr arity ++ " elements, got ".data ++ jsonTypeName arg

/-- The "Tuple arity mismatch" message of the normaliser. -/
def msgArityMismatch (arity got : Nat) : Str :=
  "Tuple arity mismatch: expected ".data ++ natToStr arity ++ ", got ".data ++ natToStr got

/-- The body of the `for (arg, param)` loop of `normalize_args_for_function`:
wrap a bare `Option<...>` argument in an option envelope, require a
`Tuple<...>` argument to be an array of the declared arity and wrap it in a
tuple envelope, and pass every other parameter shape through unchanged. -/
def normalizeArg (param : SpecParam) (arg : Json) : Except DebuggerError Json :=
  if startsWith optPre param.type_name then
    .ok (if isTypedAnnot arg then arg
         else Json.obj [(tyKey, Json.str "option".data), (valKey, arg)])
  else if startsWith tupPre param.type_name then
    match tuple_arity_from_type_name param.type_name with
    | none => .error (.InvalidArguments (msgInvalidTupleSpec param))
    | some arity =>
      match arg with
      | .arr actual =>
        if actual.length = arity then
          .ok (Json.obj [(tyKey, Json.str "tuple".data), (arKey, Json.num arity),
                         (valKey, Json.arr actual)])
        else .error (.InvalidArguments (msgArityMismatch arity actual.length))
      | other => .error (.InvalidArguments (msgExpectsTuple param arity other))
  else .ok arg

/-- The `args.iter_mut().zip(signature.params.iter())` loop of
`normalize_args_for_function`: arguments are paired with parameters
positionally, the loop stops at the shorter of the two lists, and the first
failing pair aborts the whole normalisation. -/
def zipNorm : List Json → List SpecParam → Except DebuggerError (List Json)
  | xs, [] => .ok xs
  | [], _ :: _ => .ok []
  | x :: xs, p :: ps =>
    match normalizeArg p x with
    | .error e => .error e
    | .ok y =>
      match zipNorm xs ps with
      | .error e => .error e
      | .ok ys => .ok (y :: ys)

/-- From `src/runtime/parser.rs`: `normalize_args_for_function` on the parsed JSON
document: unknown functions and non-array documents pass through unchanged,
otherwise each element of the array is rewritten by the zip loop. -/
def normalize_args_core (signatures : List SpecFunction) (function : Str)
    (args_value : Json) : Except DebuggerError Json :=
  match findSig signatures function with
  | none => .ok args_value
  | some signature =>
    match args_value with
    | .arr args =>
      match zipNorm args signature.params with
      | .error e => .error e
      | .ok ys => .ok (.arr ys)
    | v => .ok v

/-- From `src/runtime/parser.rs`: `normalize_args_for_function` at the string
boundary. `parsed` carries the outcome of `serde_json::from_str(args_json)`
(the parser itself lives in the external serde crate); on the main path the
rewritten array is re-serialised. -/
def normalize_args_for_function (signatures : List SpecFunction) (function : Str)
    (args_json : Str) (parsed : Except Str Json) : Except DebuggerError Str :=
  match findSig signatures function with
  | none => .ok args_json
  | some signature =>
    match parsed with
    | .error e => .error (.InvalidArguments ("Invalid JSON in --args: ".data ++ e))
    | .ok args_value =>
      match args_value with
      | .arr args =>
        match zipNorm args signature.params with
        | .error e => .error e
        | .ok ys => .ok (Json.toStr (.arr ys))
      | _ => .ok args_json

-- ── breakpoint evaluator (src/debugger/breakpoint.rs) ─────────────────────────

/-- Comparison operators for conditional breakpoints. -/
inductive Operator where
  | Eq | Ne | Gt | Lt | Ge | Le
deriving DecidableEq

/-- A breakpoint condition: either a storage predicate or an argument
predicate, with the value carried as a string. -/
inductive Condition where
  | Storage (key : Str) (operator : Operator) (value : Str)
  | Argument (name : Str) (operator : Operator) (value : Str)

/-- A breakpoint: a function name with an optional condition. -/
structure Breakpoint where
  function : Str
  condition : Option Condition

/-- The breakpoint manager; the `HashMap<String, Breakpoint>` keyed by
function name is embedded as an association list. -/
structure BreakpointManager where
  breakpoints : List (Str × Breakpoint)

/-- The numeric arm of `compare_values`, applied when both sides parse as
signed 128-bit integers. -/
def intCmpOp (op : Operator) (a e : Int) : Bool :=
  match op with
  | .Eq => decide (a = e)
  | .Ne => decide (a ≠ e)
  | .Gt => decide (e < a)
  | .Lt => decide (a < e)
  | .Ge => decide (e ≤ a)
  | .Le => decide (a ≤ e)

/-- The string arm of `compare_values`: Rust string comparison is
lexicographic. -/
def strCmpOp (op : Operator) (a e : Str) : Bool :=
  match op with
  | .Eq => decide (strCmp a e = .eq)
  | .Ne => decide (strCmp a e ≠ .eq)
  | .Gt => decide (strCmp a e = .gt)
  | .Lt => decide (strCmp a e = .lt)
  | .Ge => decide (strCmp a e ≠ .lt)
  | .Le => decide (strCmp a e ≠ .gt)

/-- Model of `BreakpointManager::compare_values`: numeric comparison when both sides
parse as `i128`, otherwise string comparison. -/
def compare_values (actual expected : Str) (op : Operator) : Bool :=
  match parseI128 actual, parseI128 expected with
  | some a, some e => intCmpOp op a e
  | _, _ => strCmpOp op actual expected

/-- Stringification of a JSON argument value in the `Argument` branch of
`evaluate_condition`: strings pass through, numbers use their canonical
decimal form, booleans are lowercased, and other shapes use the debug form
(modelled by the serialiser; no claim depends on that arm). -/
def jsonValToStr (v : Json) : Str :=
  match v with
  | .str s => s
  | .num n => intToStr n
  | .bool b => if b then "true".data else "false".data
  | other => Json.toStr other

/-- Model of `BreakpointManager::evaluate_condition`; `args_json` carries the optional
argument document together with the outcome of parsing it with serde. -/
def evaluate_condition (condition : Condition) (storage : List (Str × Str))
    (args_json : Option (Except Str Json)) : Bool :=
  match condition with
  | .Storage key op value =>
    match List.lookup key storage with
    | some actual => compare_values actual value op
    | none => false
  | .Argument name op value =>
    match args_json with
    | some (.ok v) =>
      match jsonGet v name with
      | some actual => compare_values (jsonValToStr actual) value op
      | none => false
    | _ => false

/-- Model of `BreakpointManager::should_break`: no breakpoint on the function means
false, a breakpoint without condition means true, otherwise the condition is
evaluated against the storage snapshot and argument document. -/
def should_break (mgr : BreakpointManager) (function : Str)
    (storage : List (Str × Str)) (args_json : Option (Except Str Json)) : Bool :=
  match List.lookup function mgr.breakpoints with
  | some bp =>
    match bp.condition with
    | some condition => evaluate_condition condition storage args_json
    | none => true
  | none => false

-- ── upgrade analyser (src/analyzer/upgrade.rs) ────────────────────────────────

/-- WASM value types. -/
inductive WasmType where
  | I32 | I64 | F32 | F64 | V128 | FuncRef | ExternRef | Unknown
deriving DecidableEq

/-- A raw function signature extracted from a WASM module. -/
structure FunctionSignature where
  name : Str
  params : List WasmType
  results : List WasmType
deriving DecidableEq

/-- Breaking changes between two contract versions. -/
inductive BreakingChange where
  | FunctionRemoved (name : Str)
  | ParameterCountChanged (name : Str) (old_count new_count : Nat)
  | ParameterTypeChanged (name : Str) (index : Nat) (old_type new_type : WasmType)
  | ReturnTypeChanged (name : Str) (old_types new_types : List WasmType)
deriving DecidableEq

/-- Non-breaking changes between two contract versions. -/
inductive NonBreakingChange where
  | FunctionAdded (name : Str)
deriving DecidableEq

/-- Execution result comparison for one test input. -/
structure ExecutionDiff where
  function : Str
  args : Str
  old_result : Str
  new_result : Str
  outputs_match : Bool

/-- The full compatibility report. -/
structure CompatibilityReport where
  is_compatible : Bool
  old_wasm_path : Str
  new_wasm_path : Str
  breaking_changes : List BreakingChange
  non_breaking_changes : List NonBreakingChange
  old_functions : List FunctionSignature
  new_functions : List FunctionSignature
  execution_diffs : List ExecutionDiff

/-- Lookup in the `HashMap` the analyser builds from the new signatures by
`collect()`: on duplicate names a later insert overwrites an earlier one, so
the lookup answers the last signature with the given name. -/
def lookupLast (sigs : List FunctionSignature) (name : Str) : Option FunctionSignature :=
  sigs.reverse.find? fun s => s.name == name

/-- The per-index parameter comparison of `diff_signatures`: walk both
parameter lists in step, emitting a `ParameterTypeChanged` wherever the types
differ. -/
def paramChangesAux (name : Str) : Nat → List WasmType → List WasmType → List BreakingChange
  | _, [], _ => []
  | _, _ :: _, [] => []
  | i, o :: os, n :: ns =>
    (if o = n then [] else [.ParameterTypeChanged name i o n])
      ++ paramChangesAux name (i + 1) os ns

/-- The body of the `for old_sig in old` loop of `diff_signatures`: removal,
parameter-count change (skipping per-parameter comparison), per-parameter
type changes, then return-type change. -/
def changesFor (new : List FunctionSignature) (old_sig : FunctionSignature) :
    List BreakingChange :=
  match lookupLast new old_sig.name with
  | none => [.FunctionRemoved old_sig.name]
  | some new_sig =>
    (if old_sig.params.length = new_sig.params.length
     then paramChangesAux old_sig.name 0 old_sig.params new_sig.params
     else [.ParameterCountChanged old_sig.name old_sig.params.length new_sig.params.length])
      ++ (if old_sig.results = new_sig.results then []
          else [.ReturnTypeChanged old_sig.name old_sig.results new_sig.results])

/-- Model of `UpgradeAnalyzer::diff_signatures`: breaking changes in the order of the
old signatures, then additions in the order of the new signatures. -/
def diff_signatures (old new : List FunctionSignature) :
    List BreakingChange × List NonBreakingChange :=
  ((old.map (changesFor new)).flatten,
   (new.filter fun s => !(old.any fun o => o.name == s.name)).map
     fun s => .FunctionAdded s.name)

/-- Model of `UpgradeAnalyzer::analyze`, over the signature lists the external WASM
reader (`crate::utils::wasm::parse_function_signatures`, not under `src/`)
extracts from the two binaries. -/
def analyze (old_functions new_functions : List FunctionSignature)
    (old_path new_path : Str) (execution_diffs : List ExecutionDiff) :
    CompatibilityReport :=
  let d := diff_signatures old_functions new_functions
  let has_execution_mismatches := execution_diffs.any fun d => !d.outputs_match
  { is_compatible := d.1.isEmpty && !has_execution_mismatches
    old_wasm_path := old_path
    new_wasm_path := new_path
    breaking_changes := d.1
    non_breaking_changes := d.2
    old_functions := old_functions
    new_functions := new_functions
    execution_diffs := execution_diffs }

-- ── invocation result formatting (src/runtime/result.rs) ──────────────────────

/-- Model of `soroban_sdk::InvokeError`: a typed contract error code or a host abort. -/
inductive InvokeError where
  | Contract (code : Nat)
  | Abort

/-- Rust `format!` debug form of an `InvokeError`. -/
def dbgInvokeError (e : InvokeError) : Str :=
  match e with
  | .Contract code => "Contract(".data ++ natToStr code ++ ")".data
  | .Abort => "Abort".data

/-- The message of the `Err(Ok(inv_err))` branch of
`format_invocation_result`. -/
def invokeErrorMsg (e : InvokeError) : Str :=
  match e with
  | .Contract code =>
    "The contract returned an error code: ".data ++ natToStr code
      ++ ". This typically indicates a business logic failure (e.g. `panic!` or `require!`).".data
  | .Abort =>
    "Contract execution was aborted. This could be due to a trap, budget exhaustion, or an explicit abort call.".data

/-- From `src/runtime/result.rs`: `format_invocation_result`. The host's value
types are abstract: `dbgVal` is the Rust debug form of a host value and
`tryFromVal` is `ScVal::try_from_val` with conversion errors carried as their
debug strings. The `error_db.display_error` call in the contract-error branch
only prints and is dropped. -/
def format_invocation_result {V S : Type} (dbgVal : V → Str)
    (tryFromVal : V → Except Str S)
    (invocation_result : Except (Except InvokeError InvokeError) (Except Str V)) :
    Except DebuggerError Str × Except Str S :=
  match invocation_result with
  | .ok (.ok val) =>
    match tryFromVal val with
    | .ok sc_val => (.ok (dbgVal val), .ok sc_val)
    | .error e =>
      let msg := "Result conversion failed: ".data ++ e
      (.error (.ExecutionError msg), .error msg)
  | .ok (.error conv_err) =>
    let msg := "Return value conversion failed: ".data ++ conv_err
    (.error (.ExecutionError msg), .error msg)
  | .error (.ok inv_err) =>
    let msg := invokeErrorMsg inv_err
    (.error (.ExecutionError msg), .error msg)
  | .error (.error inv_err) =>
    let msg := "Invocation failed with internal error: ".data ++ dbgInvokeError inv_err
    (.error (.ExecutionError msg), .error msg)

-- ── invoker and executor (src/runtime/invoker.rs, src/runtime/executor.rs) ───

/-- A captured execution trace, generic over the serialised host value type. -/
structure ExecutionRecord (S : Type) where
  function : Str
  args : List S
  result : Except Str S
  storage_before : List (Str × Str)
  storage_after : List (Str × Str)

/-- The argument conversion `parsed_args.iter().map(ScVal::try_from_val)
.collect()`: the first failing conversion aborts. -/
def collectScVals {V S : Type} (tryFromVal : V → Except Str S) :
    List V → Except Str (List S)
  | [] => .ok []
  | v :: vs =>
    match tryFromVal v with
    | .error e => .error e
    | .ok s =>
      match collectScVals tryFromVal vs with
      | .error e => .error e
      | .ok ss => .ok (s :: ss)

/-- From `src/runtime/invoker.rs`: `invoke_function`. The two storage snapshots,
and the host invocation itself, are external effects whose outcomes are
passed in; the progress spinner, memory tracker and budget display only
print and are dropped; the timeout watchdog is modelled separately. The
sequencing and error propagation follow the source: storage-before, argument
conversion, invocation, storage-after, result formatting, record
construction, and finally the display result paired with the record. -/
def invoke_function {V S : Type} (dbgVal : V → Str) (tryFromVal : V → Except Str S)
    (function : Str) (parsed_args : List V)
    (storageBefore storageAfter : Except DebuggerError (List (Str × Str)))
    (invocation_result : Except (Except InvokeError InvokeError) (Except Str V)) :
    Except DebuggerError (Str × ExecutionRecord S) :=
  match storageBefore with
  | .error e => .error e
  | .ok storage_before =>
    match collectScVals tryFromVal parsed_args with
    | .error e =>
      .error (.ExecutionError ("Failed to convert arguments to ScVal: ".data ++ e))
    | .ok sc_args =>
      match storageAfter with
      | .error e => .error e
      | .ok storage_after =>
        match (format_invocation_result dbgVal tryFromVal invocation_result).1 with
        | .error e => .error e
        | .ok display =>
          .ok (display, ⟨function, sc_args,
            (format_invocation_result dbgVal tryFromVal invocation_result).2,
            storage_before, storage_after⟩)

/-- The executor state, restricted to the fields `execute` reads or writes;
the remaining fields (environment, contract address, mock registry, error
catalogue) are owned by external crates and are never mutated by `execute`. -/
structure ContractExecutor (S : Type) where
  last_execution : Option (ExecutionRecord S)
  timeout_secs : Nat

/-- From `src/runtime/executor.rs`: `ContractExecutor::execute`; `exported` carries
the outcome of `crate::utils::wasm::parse_functions` (external), and
`argsOutcome` the outcome of `parse_args` when an argument string was given
(`none` for no arguments, matching the `None => vec![]` arm). The function
returns the display result together with the executor state after the call:
`last_execution` is replaced only on success. -/
def ContractExecutor.execute {V S : Type} (exec : ContractExecutor S)
    (function : Str) (exported : Except DebuggerError (List Str))
    (argsOutcome : Option (Except DebuggerError (List V)))
    (dbgVal : V → Str) (tryFromVal : V → Except Str S)
    (storageBefore storageAfter : Except DebuggerError (List (Str × Str)))
    (invocation_result : Except (Except InvokeError InvokeError) (Except Str V)) :
    Except DebuggerError Str × ContractExecutor S :=
  match exported with
  | .error e => (.error e, exec)
  | .ok names =>
    if names.contains function then
      match (match argsOutcome with
             | some r => r
             | none => .ok []) with
      | .error e => (.error e, exec)
      | .ok parsed_args =>
        match invoke_function dbgVal tryFromVal function parsed_args
                storageBefore storageAfter invocation_result with
        | .error e => (.error e, exec)
        | .ok (display, record) =>
          (.ok display, { exec with last_execution := some record })
    else (.error (.InvalidFunction function), exec)

-- ── timeout watchdog (src/runtime/invoker.rs, lines 76-91) ───────────────────

/-- The three outcomes of the watchdog's `rx.recv_timeout(timeout)`:
the cancellation signal arrived before the deadline, the channel
disconnected, or the deadline elapsed first. -/
inductive RecvOutcome where
  | signalReceived
  | disconnected
  | deadlineElapsed
deriving DecidableEq

/-- What the watchdog thread does on exit. -/
inductive WatchdogAction where
  | exitProcess (code : Nat)
  | exitSilently
deriving DecidableEq

/-- Whether `invoke_function` spawns the watchdog thread at all:
`if timeout_secs > 0`. -/
def watchdogSpawned (timeout_secs : Nat) : Bool := timeout_secs > 0

/-- The body of the watchdog thread: terminate the process with exit code 124
exactly on the timeout outcome, exit silently on cancellation or
disconnection. -/
def watchdogAction (outcome : RecvOutcome) : WatchdogAction :=
  match outcome with
  | .signalReceived => .exitSilently
  | .disconnected => .exitSilently
  | .deadlineElapsed => .exitProcess 124

-- ── C2: the ok(err(conv)) branch of the result trichotomy ────────────────────

/-- C2 counterexample: when the host invocation returns `ok(err(conv))`, the
recorded message begins with "Return value conversion failed:", not with
"Result conversion failed:" as claimed (the latter belongs to the `Ok(Ok)`
branch whose reserialisation fails). -/
theorem result_conversion_message_mismatch :
    (format_invocation_result (V := Nat) (S := Nat) (fun n => natToStr n)
        (fun n => .ok n) (.ok (.error "ConversionError".data))).1
      = .error (.ExecutionError ("Return value conversion failed: ".data ++ "ConversionError".data))
    ∧ List.isPrefixOf "Result conversion failed:".data
        ("Return value conversion failed: ".data ++ "ConversionError".data) = false :=
  ⟨rfl, by decide⟩

/-- C2 (amended): when the host invocation returns `ok(err(conv))`, the
invoker records the outcome as an error whose message is "Return value
conversion failed: " followed by the conversion error's debug form, and the
displayed result is an `ExecutionError` carrying the same message. -/
theorem ok_err_branch_message {V S : Type} (dbgVal : V → Str)
    (tryFromVal : V → Except Str S) (conv_err : Str) :
    format_invocation_result dbgVal tryFromVal (.ok (.error conv_err)) =
      (.error (.ExecutionError ("Return value conversion failed: ".data ++ conv_err)),
       .error ("Return value conversion failed: ".data ++ conv_err)) := rfl

-- ── C6: the compatibility predicate ──────────────────────────────────────────

/-- C6: the analyser's report is compatible exactly when the breaking-change
list is empty and every execution diff has matching outputs. -/
theorem is_compatible_iff (old_functions new_functions : List FunctionSignature)
    (old_path new_path : Str) (execution_diffs : List ExecutionDiff) :
    (analyze old_functions new_functions old_path new_path execution_diffs).is_compatible = true ↔
      (analyze old_functions new_functions old_path new_path execution_diffs).breaking_changes = []
      ∧ ∀ d ∈ (analyze old_functions new_functions old_path new_path execution_diffs).execution_diffs,
          d.outputs_match = true := by
  simp only [analyze, Bool.and_eq_true, List.isEmpty_iff, Bool.not_eq_true',
    List.any_eq_false, Bool.not_eq_false]

/-- C6 witness: the report for identical empty signature lists and no
execution diffs is compatible. -/
theorem is_compatible_iff_witness :
    (analyze [] [] [] [] []).is_compatible = true :=
  (is_compatible_iff [] [] [] [] []).mpr ⟨rfl, fun d h => absurd h (List.not_mem_nil d)⟩

-- ── C9: timeout watchdog ─────────────────────────────────────────────────────

/-- C9: the watchdog is spawned exactly when `timeout_secs > 0`, it
terminates the process with exit code 124 exactly on the deadline-elapsed
outcome of `recv_timeout`, and 124 is the only exit code it can use;
cancellation before the deadline and channel disconnection exit silently. -/
theorem watchdog_exit_semantics (timeout_secs : Nat) (outcome : RecvOutcome) :
    (watchdogSpawned timeout_secs = true ↔ 0 < timeout_secs)
    ∧ (watchdogAction outcome = .exitProcess 124 ↔ outcome = .deadlineElapsed)
    ∧ (∀ code, watchdogAction outcome = .exitProcess code → code = 124)
    ∧ (outcome = .signalReceived ∨ outcome = .disconnected →
        watchdogAction outcome = .exitSilently) := by
  refine ⟨by simp [watchdogSpawned], ?_, ?_, ?_⟩ <;>
    cases outcome <;> simp [watchdogAction]

/-- C9 witness: at timeout 1 second, the deadline-elapsed outcome exits the
process with code 124. -/
theorem watchdog_exit_semantics_witness :
    watchdogAction .deadlineElapsed = .exitProcess 124 :=
  (watchdog_exit_semantics 1 .deadlineElapsed).2.1.mpr rfl

-- ── C4: storage breakpoint conditions ────────────────────────────────────────

/-- C4: for a breakpoint whose condition is `Storage key op value`, an absent
key makes `should_break` false, a present key makes it `compare_values` of
the stored value against the condition value; and `compare_values` compares
numerically exactly when both strings parse as signed 128-bit integers,
falling back to lexicographic string comparison otherwise, for all six
operators. -/
theorem should_break_storage_semantics (mgr : BreakpointManager) (f key : Str)
    (op : Operator) (value : Str) (storage : List (Str × Str))
    (args_json : Option (Except Str Json)) (bp : Breakpoint)
    (hbp : List.lookup f mgr.breakpoints = some bp)
    (hcond : bp.condition = some (.Storage key op value)) :
    (List.lookup key storage = none → should_break mgr f storage args_json = false)
    ∧ (∀ actual, List.lookup key storage = some actual →
        should_break mgr f storage args_json = compare_values actual value op)
    ∧ (∀ a b o,
        (∀ x y, parseI128 a = some x → parseI128 b = some y →
          compare_values a b o = intCmpOp o x y)
        ∧ ((parseI128 a = none ∨ parseI128 b = none) →
          compare_values a b o = strCmpOp o a b)) := by
  refine ⟨?_, ?_, ?_⟩
  · intro h
    unfold should_break
    simp only [hbp, hcond]
    show (match List.lookup key storage with
          | some actual => compare_values actual value op
          | none => false) = false
    rw [h]
  · intro actual h
    unfold should_break
    simp only [hbp, hcond]
    show (match List.lookup key storage with
          | some actual => compare_values actual value op
          | none => false) = compare_values actual value op
    rw [h]
  · intro a b o
    constructor
    · intro x y hx hy
      unfold compare_values
      rw [hx, hy]
    · intro h
      unfold compare_values
      cases h with
      | inl h => rw [h]
      | inr h =>
        rw [h]
        cases parseI128 a <;> rfl

/-- C4 witness: with storage mapping "counter" to "apple", the condition
`storage[counter] >= 10` is settled by string comparison (since "apple" does
not parse as an integer), which here yields true. -/
theorem should_break_storage_semantics_witness :
    should_break ⟨[("f".data, ⟨"f".data, some (.Storage "counter".data .Ge "10".data)⟩)]⟩
        "f".data [("counter".data, "apple".data)] none
      = strCmpOp .Ge "apple".data "10".data
    ∧ strCmpOp .Ge "apple".data "10".data = true := by
  refine ⟨?_, by decide⟩
  have h := should_break_storage_semantics
    ⟨[("f".data, ⟨"f".data, some (.Storage "counter".data .Ge "10".data)⟩)]⟩
    "f".data "counter".data .Ge "10".data [("counter".data, "apple".data)] none
    ⟨"f".data, some (.Storage "counter".data .Ge "10".data)⟩ rfl rfl
  rw [h.2.1 "apple".data rfl]
  exact (h.2.2 "apple".data "10".data .Ge).2 (Or.inl rfl)

-- ── C5: the two pass-through cases of the normaliser ─────────────────────────

/-- C5: the argument normaliser is the identity in the two pass-through
cases: an unknown function returns the input string unchanged (whatever the
parse outcome), and a parseable input whose top-level JSON is not an array
also returns the input string unchanged; neither case fails. -/
theorem normalize_passthrough_cases (signatures : List SpecFunction)
    (function : Str) (args_json : Str) (parsed : Except Str Json) :
    (findSig signatures function = none →
      normalize_args_for_function signatures function args_json parsed = .ok args_json)
    ∧ (∀ sig v, findSig signatures function = some sig → parsed = .ok v →
        (∀ xs, v ≠ .arr xs) →
        normalize_args_for_function signatures function args_json parsed = .ok args_json) := by
  constructor
  · intro h
    unfold normalize_args_for_function
    rw [h]
  · intro sig v hf hp hv
    unfold normalize_args_for_function
    rw [hf, hp]
    cases v with
    | arr xs => exact absurd rfl (hv xs)
    | null => rfl
    | bool b => rfl
    | num n => rfl
    | str s => rfl
    | obj kvs => rfl

/-- C5 witness: an unknown function passes an unparseable string through
unchanged, and a known function passes a non-array document through
unchanged. -/
theorem normalize_passthrough_cases_witness :
    normalize_args_for_function [] "g".data "[1,2".data (.error "eof".data)
      = .ok "[1,2".data
    ∧ normalize_args_for_function [⟨"f".data, []⟩] "f".data "3".data (.ok (.num 3))
      = .ok "3".data :=
  ⟨(normalize_passthrough_cases [] "g".data "[1,2".data (.error "eof".data)).1 rfl,
   (normalize_passthrough_cases [⟨"f".data, []⟩] "f".data "3".data (.ok (.num 3))).2
     ⟨"f".data, []⟩ (.num 3) rfl rfl (fun _ h => Json.noConfusion h)⟩

-- ── C10: no argument-count check in the normaliser ───────────────────────────

/-- If every positional pair succeeds, the zip loop succeeds, its output is
as long as the argument list, and everything beyond the parameter list is
passed through unchanged. -/
theorem zipNorm_spec (xs : List Json) (ps : List SpecParam)
    (h : ∀ pr ∈ xs.zip ps, (normalizeArg pr.2 pr.1).isOk = true) :
    ∃ ys, zipNorm xs ps = .ok ys ∧ ys.length = xs.length
      ∧ ys.drop ps.length = xs.drop ps.length := by
  induction xs generalizing ps with
  | nil =>
    cases ps with
    | nil => exact ⟨[], rfl, rfl, rfl⟩
    | cons p ps' => exact ⟨[], rfl, rfl, by simp⟩
  | cons x xs' ih =>
    cases ps with
    | nil => exact ⟨x :: xs', rfl, rfl, rfl⟩
    | cons p ps' =>
      have hx : (normalizeArg p x).isOk = true := h (x, p) (by simp)
      obtain ⟨y, hy⟩ : ∃ y, normalizeArg p x = .ok y := by
        cases he : normalizeArg p x with
        | error e => rw [he] at hx; exact absurd hx (by simp [Except.isOk, Except.toBool])
        | ok y => exact ⟨y, rfl⟩
      obtain ⟨ys', hz, hl, hd⟩ := ih ps' (fun pr hpr => h pr (by simp [hpr]))
      refine ⟨y :: ys', ?_, by simp [hl], by simpa using hd⟩
      unfold zipNorm
      rw [hy, hz]

/-- C10: the normaliser performs no argument-count check: for a function
found in the signatures, arguments are paired with parameters positionally,
so whenever each paired argument normalises, the whole array normalises —
whether it is longer or shorter than the parameter list — and all surplus
arguments beyond the parameter list are passed through unchanged. -/
theorem normalize_zip_no_count_check (signatures : List SpecFunction)
    (function : Str) (sig : SpecFunction) (xs : List Json)
    (hfind : findSig signatures function = some sig)
    (hpairs : ∀ pr ∈ xs.zip sig.params, (normalizeArg pr.2 pr.1).isOk = true) :
    ∃ ys, normalize_args_core signatures function (.arr xs) = .ok (.arr ys)
      ∧ ys.length = xs.length
      ∧ ys.drop sig.params.length = xs.drop sig.params.length := by
  obtain ⟨ys, hz, hl, hd⟩ := zipNorm_spec xs sig.params hpairs
  refine ⟨ys, ?_, hl, hd⟩
  unfold normalize_args_core
  rw [hfind]
  show (match zipNorm xs sig.params with
        | .error e => (Except.error e : Except DebuggerError Json)
        | .ok zs => .ok (.arr zs)) = .ok (.arr ys)
  rw [hz]

/-- C10 witness: a three-element argument array against a one-parameter
signature normalises, keeps its length, and passes the two surplus arguments
through unchanged; a shorter (empty) array also normalises. -/
theorem normalize_zip_no_count_check_witness :
    (∃ ys, normalize_args_core [⟨"f".data, [⟨"x".data, "U32".data⟩]⟩] "f".data
        (.arr [.num 1, .num 2, .num 3]) = .ok (.arr ys)
      ∧ ys.length = 3 ∧ ys.drop 1 = [Json.num 2, Json.num 3])
    ∧ (∃ ys, normalize_args_core [⟨"f".data, [⟨"x".data, "U32".data⟩]⟩] "f".data
        (.arr []) = .ok (.arr ys) ∧ ys.length = 0 ∧ ys.drop 1 = []) := by
  constructor
  · obtain ⟨ys, h1, h2, h3⟩ := normalize_zip_no_count_check
      [⟨"f".data, [⟨"x".data, "U32".data⟩]⟩] "f".data ⟨"f".data, [⟨"x".data, "U32".data⟩]⟩
      [.num 1, .num 2, .num 3] rfl (by decide)
    exact ⟨ys, h1, h2, h3⟩
  · obtain ⟨ys, h1, h2, h3⟩ := normalize_zip_no_count_check
      [⟨"f".data, [⟨"x".data, "U32".data⟩]⟩] "f".data ⟨"f".data, [⟨"x".data, "U32".data⟩]⟩
      [] rfl (by decide)
    exact ⟨ys, h1, h2, h3⟩

-- ── C7: signature diff against itself ────────────────────────────────────────

/-- Walking two equal parameter lists in step emits no type changes. -/
theorem paramChangesAux_self (name : Str) (i : Nat) (ps : List WasmType) :
    paramChangesAux name i ps ps = [] := by
  induction ps generalizing i with
  | nil => rfl
  | cons p ps' ih =>
    unfold paramChangesAux
    rw [if_pos rfl, ih (i + 1)]
    rfl

/-- With pairwise-distinct names, the map the analyser builds answers each
member signature itself. -/
theorem find_self_of_nodup_names (l : List FunctionSignature)
    (h : (l.map FunctionSignature.name).Nodup) (sig : FunctionSignature)
    (hm : sig ∈ l) : l.find? (fun s => s.name == sig.name) = some sig := by
  induction l with
  | nil => cases hm
  | cons a l' ih =>
    rcases List.mem_cons.mp hm with rfl | hm'
    · simp [List.find?]
    · have hne : a.name ≠ sig.name := by
        intro he
        exact (List.nodup_cons.mp (by simpa using h)).1
          (he ▸ List.mem_map_of_mem FunctionSignature.name hm')
      have hbeq : (a.name == sig.name) = false := beq_eq_false_iff_ne.mpr hne
      rw [List.find?_cons, hbeq]
      exact ih (List.nodup_cons.mp (by simpa using h)).2 hm'

/-- C7 counterexample: on a signature list with a duplicated name, diffing
the list against itself is not empty — the map indexed by name keeps only
the last signature, so the first duplicate is compared against the second
and a spurious `ParameterTypeChanged` is emitted. -/
theorem diff_self_not_empty_on_duplicate_names :
    diff_signatures
        [⟨"f".data, [.I32], []⟩, ⟨"f".data, [.I64], []⟩]
        [⟨"f".data, [.I32], []⟩, ⟨"f".data, [.I64], []⟩]
      = ([.ParameterTypeChanged "f".data 0 .I32 .I64], [])
    ∧ ([BreakingChange.ParameterTypeChanged "f".data 0 .I32 .I64],
        ([] : List NonBreakingChange))
      ≠ (([], []) : List BreakingChange × List NonBreakingChange) :=
  ⟨by decide, by decide⟩

/-- C7 (amended): for every signature list with pairwise-distinct function
names — as extracted from a binary, whose export names are unique — diffing
the list against itself produces an empty breaking-change list and an empty
non-breaking-change list. -/
theorem diff_signatures_self_empty_nodup (l : List FunctionSignature)
    (h : (l.map FunctionSignature.name).Nodup) :
    diff_signatures l l = ([], []) := by
  unfold diff_signatures
  refine Prod.ext ?_ ?_
  · show (l.map (changesFor l)).flatten = []
    rw [List.flatten_eq_nil_iff]
    intro cs hcs
    obtain ⟨sig, hsig, rfl⟩ := List.mem_map.mp hcs
    have hfind : lookupLast l sig.name = some sig := by
      unfold lookupLast
      exact find_self_of_nodup_names l.reverse (by simpa using h) sig
        (List.mem_reverse.mpr hsig)
    simp [changesFor, hfind, paramChangesAux_self]
  · show (l.filter fun s => !(l.any fun o => o.name == s.name)).map
        (fun s => NonBreakingChange.FunctionAdded s.name) = []
    rw [List.map_eq_nil_iff, List.filter_eq_nil_iff]
    intro s hs
    have : l.any (fun o => o.name == s.name) = true :=
      List.any_eq_true.mpr ⟨s, hs, beq_self_eq_true s.name⟩
    simp [this]

/-- C7 witness: diffing a two-function signature list against itself is
empty. -/
theorem diff_signatures_self_empty_nodup_witness :
    diff_signatures [⟨"foo".data, [.I32], []⟩, ⟨"bar".data, [], [.I64]⟩]
        [⟨"foo".data, [.I32], []⟩, ⟨"bar".data, [], [.I64]⟩] = ([], []) :=
  diff_signatures_self_empty_nodup
    [⟨"foo".data, [.I32], []⟩, ⟨"bar".data, [], [.I64]⟩] (by decide)

-- ── C1: idempotence of the argument normaliser ───────────────────────────────

/-- The per-argument rewrite is idempotent for non-Tuple parameters: an
Option wrap produces a typed annotation which the second pass keeps, and
every other non-Tuple parameter passes through unchanged. -/
theorem normalizeArg_idem (p : SpecParam)
    (hnt : startsWith tupPre p.type_name = false) (x y : Json)
    (h : normalizeArg p x = .ok y) : normalizeArg p y = .ok y := by
  unfold normalizeArg at h ⊢
  by_cases ho : startsWith optPre p.type_name = true
  · rw [if_pos ho] at h ⊢
    by_cases ha : isTypedAnnot x = true
    · rw [if_pos ha] at h
      injection h with h
      subst h
      rw [if_pos ha]
    · rw [if_neg ha] at h
      injection h with h
      subst h
      rw [if_pos (show isTypedAnnot (Json.obj [(tyKey, Json.str "option".data), (valKey, x)]) = true from rfl)]
  · rw [if_neg ho, if_neg (by rw [hnt]; exact Bool.false_ne_true)]

/-- The zip loop is idempotent when no paired parameter is Tuple-typed. -/
theorem zipNorm_idem (xs ys : List Json) (ps : List SpecParam)
    (hnt : ∀ p ∈ ps, startsWith tupPre p.type_name = false)
    (h : zipNorm xs ps = .ok ys) : zipNorm ys ps = .ok ys := by
  induction xs generalizing ps ys with
  | nil =>
    cases ps with
    | nil =>
      injection h with h
      subst h
      rfl
    | cons p ps' =>
      injection h with h
      subst h
      rfl
  | cons x xs' ih =>
    cases ps with
    | nil =>
      injection h with h
      subst h
      rfl
    | cons p ps' =>
      unfold zipNorm at h
      cases hx : normalizeArg p x with
      | error e => rw [hx] at h; cases h
      | ok y =>
        rw [hx] at h
        cases hz : zipNorm xs' ps' with
        | error e => rw [hz] at h; cases h
        | ok ys' =>
          rw [hz] at h
          injection h with h
          subst h
          have hy : normalizeArg p y = .ok y :=
            normalizeArg_idem p (hnt p (List.mem_cons_self p ps')) x y hx
          have hys : zipNorm ys' ps' = .ok ys' :=
            ih ys' ps' (fun q hq => hnt q (List.mem_cons_of_mem p hq)) hz
          unfold zipNorm
          rw [hy, hys]

/-- C1 (amended): normalisation is idempotent whenever no parameter of the
signatures is Tuple-typed: if normalising once succeeds, normalising the
output again succeeds and returns it unchanged. (With a Tuple parameter the
second pass fails, because the tuple envelope written by the first pass is an
object, no longer an array.) -/
theorem normalize_idempotent_no_tuple_params (signatures : List SpecFunction)
    (function : Str) (a b : Json)
    (hnt : ∀ sig ∈ signatures, ∀ p ∈ sig.params,
      startsWith tupPre p.type_name = false)
    (h : normalize_args_core signatures function a = .ok b) :
    normalize_args_core signatures function b = .ok b := by
  unfold normalize_args_core at h ⊢
  cases hf : findSig signatures function with
  | none => rfl
  | some sig =>
    rw [hf] at h
    have hsig : sig ∈ signatures := List.mem_of_find?_eq_some hf
    have hp := hnt sig hsig
    cases a with
    | arr xs =>
      revert h
      show (match zipNorm xs sig.params with
            | .error e => (Except.error e : Except DebuggerError Json)
            | .ok zs => .ok (.arr zs)) = .ok b → _
      cases hz : zipNorm xs sig.params with
      | error e => intro h; cases h
      | ok ys =>
        intro h
        injection h with h
        subst h
        show (match zipNorm ys sig.params with
              | .error e => (Except.error e : Except DebuggerError Json)
              | .ok zs => .ok (.arr zs)) = .ok (.arr ys)
        rw [zipNorm_idem xs ys sig.params hp hz]
    | null => injection h with h; subst h; rfl
    | bool v => injection h with h; subst h; rfl
    | num n => injection h with h; subst h; rfl
    | str s => injection h with h; subst h; rfl
    | obj kvs => injection h with h; subst h; rfl

/-- C1 counterexample: for a signature with a `Tuple<U32,U32>` parameter,
the first normalisation of `[[1,2]]` succeeds and wraps the argument in a
tuple envelope, but normalising that output again fails with
`InvalidArguments` — so normalising twice is not the same as normalising
once, and a second normalisation can fail although the first succeeded. -/
theorem normalize_second_pass_fails_on_tuple :
    normalize_args_core [⟨"f".data, [⟨"t".data, "Tuple<U32,U32>".data⟩]⟩] "f".data
        (.arr [.arr [.num 1, .num 2]])
      = .ok (.arr [.obj [(tyKey, .str "tuple".data), (arKey, .num 2),
          (valKey, .arr [.num 1, .num 2])]])
    ∧ normalize_args_core [⟨"f".data, [⟨"t".data, "Tuple<U32,U32>".data⟩]⟩] "f".data
        (.arr [.obj [(tyKey, .str "tuple".data), (arKey, .num 2),
          (valKey, .arr [.num 1, .num 2])]])
      = .error (.InvalidArguments (msgExpectsTuple ⟨"t".data, "Tuple<U32,U32>".data⟩ 2
          (.obj [(tyKey, .str "tuple".data), (arKey, .num 2),
            (valKey, .arr [.num 1, .num 2])])))
    ∧ normalize_args_core [⟨"f".data, [⟨"t".data, "Tuple<U32,U32>".data⟩]⟩] "f".data
        (.arr [.obj [(tyKey, .str "tuple".data), (arKey, .num 2),
          (valKey, .arr [.num 1, .num 2])]])
      ≠ normalize_args_core [⟨"f".data, [⟨"t".data, "Tuple<U32,U32>".data⟩]⟩] "f".data
        (.arr [.arr [.num 1, .num 2]]) :=
  ⟨rfl, rfl, fun h => Except.noConfusion h⟩

/-- C1 witness: for a signature whose only parameter is `Option<U32>`,
normalising the output of a successful normalisation returns it unchanged. -/
theorem normalize_idempotent_no_tuple_params_witness :
    normalize_args_core [⟨"f".data, [⟨"o".data, "Option<U32>".data⟩]⟩] "f".data
        (.arr [.obj [(tyKey, .str "option".data), (valKey, .null)]])
      = .ok (.arr [.obj [(tyKey, .str "option".data), (valKey, .null)]]) :=
  normalize_idempotent_no_tuple_params [⟨"f".data, [⟨"o".data, "Option<U32>".data⟩]⟩]
    "f".data (.arr [.null])
    (.arr [.obj [(tyKey, .str "option".data), (valKey, .null)]])
    (by decide) rfl

-- ── C8: tuple arity computation ──────────────────────────────────────────────

/-- The join `join(types, ",")`: the interior of a tuple type name. -/
def joinComma : List Str → Str
  | [] => []
  | [t] => t
  | t :: u :: ts => t ++ ',' :: joinComma (u :: ts)

/-- A well-bracketed scan from a given depth: `<` opens, `>` closes only a
bracket that is open, a comma never occurs at depth zero, and all brackets
are closed at the end. -/
def wfScan : Str → Nat → Bool
  | [], d => d == 0
  | c :: cs, d =>
    if c = '<' then wfScan cs (d + 1)
    else if c = '>' then decide (d ≠ 0) && wfScan cs (d - 1)
    else if c = ',' then decide (d ≠ 0) && wfScan cs d
    else wfScan cs d

/-- A well-formed surface type name: not blank, with balanced angle brackets
and no top-level comma. -/
def wfTypeName (t : Str) : Bool := !allWs t && wfScan t 0

/-- Scanning a well-bracketed segment neither changes the arity count nor
leaves a pending depth: the scan continues on the rest from depth zero. -/
theorem arityScan_append (t : Str) (rest : Str) (d a : Nat)
    (h : wfScan t d = true) :
    arityScan (t ++ rest) d a = arityScan rest 0 a := by
  induction t generalizing d a with
  | nil =>
    have hd : d = 0 := by simpa [wfScan] using h
    subst hd
    rfl
  | cons c cs ih =>
    unfold wfScan at h
    show (if c = '<' then arityScan (cs ++ rest) (d + 1) a
          else if c = '>' then arityScan (cs ++ rest) (d - 1) a
          else if c = ',' then
            (if d = 0 then arityScan (cs ++ rest) d (a + 1)
             else arityScan (cs ++ rest) d a)
          else arityScan (cs ++ rest) d a) = arityScan rest 0 a
    by_cases h1 : c = '<'
    · rw [if_pos h1]
      rw [if_pos h1] at h
      exact ih (d + 1) a h
    · rw [if_neg h1]
      rw [if_neg h1] at h
      by_cases h2 : c = '>'
      · rw [if_pos h2]
        rw [if_pos h2] at h
        exact ih (d - 1) a (Bool.and_elim_right h)
      · rw [if_neg h2]
        rw [if_neg h2] at h
        by_cases h3 : c = ','
        · rw [if_pos h3]
          rw [if_pos h3] at h
          have hd : d ≠ 0 := of_decide_eq_true (Bool.and_elim_left h)
          rw [if_neg hd]
          exact ih d a (Bool.and_elim_right h)
        · rw [if_neg h3]
          rw [if_neg h3] at h
          exact ih d a h

/-- Scanning the comma-joined interior of a non-empty list of well-bracketed
type names counts exactly the separating commas. -/
theorem arityScan_join (ts : List Str) (t : Str) (a : Nat)
    (h : ∀ u ∈ t :: ts, wfScan u 0 = true) :
    arityScan (joinComma (t :: ts)) 0 a = a + ts.length := by
  induction ts generalizing t a with
  | nil =>
    show arityScan t 0 a = a
    have := arityScan_append t [] 0 a (h t (List.mem_cons_self t []))
    simpa using this
  | cons t' ts' ih =>
    show arityScan (t ++ ',' :: joinComma (t' :: ts')) 0 a = a + (ts'.length + 1)
    rw [arityScan_append t (',' :: joinComma (t' :: ts')) 0 a
      (h t (List.mem_cons_self t (t' :: ts')))]
    show arityScan (joinComma (t' :: ts')) 0 (a + 1) = a + (ts'.length + 1)
    rw [ih t' (a + 1) (fun u hu => h u (List.mem_cons_of_mem t hu))]
    omega

/-- Stripping an exact leading pattern with `stripPre` succeeds. -/
theorem stripPre_append (p s : Str) : stripPre p (p ++ s) = some s := by
  induction p with
  | nil => rfl
  | cons c cs ih =>
    show (if c = c then stripPre cs (cs ++ s) else none) = some s
    rw [if_pos rfl, ih]

/-- Stripping an exact trailing character with `stripSufChar` succeeds. -/
theorem stripSufChar_append (c : Char) (s : Str) :
    stripSufChar c (s ++ [c]) = some s := by
  unfold stripSufChar
  rw [List.reverse_append]
  show (if c = c then some s.reverse.reverse else none) = some s
  rw [if_pos rfl, List.reverse_reverse]

/-- Unfolding `tuple_arity_from_type_name` on a string of the shape
`Tuple<` ++ interior ++ `>`. -/
theorem tuple_arity_unfold (inner : Str) :
    tuple_arity_from_type_name (tupPre ++ inner ++ ['>'])
      = if allWs inner then some 0 else some (arityScan inner 0 1) := by
  unfold tuple_arity_from_type_name
  rw [List.append_assoc, stripPre_append]
  show (match stripSufChar '>' (inner ++ ['>']) with
        | none => none
        | some i => if allWs i = true then some 0 else some (arityScan i 0 1))
      = if allWs inner = true then some 0 else some (arityScan inner 0 1)
  rw [stripSufChar_append]

/-- C8: the arity computation is correct. For every finite list of
well-formed type names — nested generics included — the arity of
`Tuple<` ++ join(types, ",") ++ `>` is the length of the list; and a blank
(empty or whitespace-only) interior gives arity 0. -/
theorem tuple_arity_computation :
    (∀ types : List Str, (∀ t ∈ types, wfTypeName t = true) →
        tuple_arity_from_type_name (tupPre ++ joinComma types ++ ['>'])
          = some types.length)
    ∧ (∀ s : Str, allWs s = true →
        tuple_arity_from_type_name (tupPre ++ s ++ ['>']) = some 0) := by
  constructor
  · intro types h
    rw [tuple_arity_unfold]
    cases types with
    | nil => rfl
    | cons t ts =>
      have hwf := h t (List.mem_cons_self t ts)
      have hnws : allWs (joinComma (t :: ts)) = false := by
        cases ts with
        | nil => simpa [wfTypeName] using (Bool.and_elim_left (by simpa [wfTypeName] using hwf) : !allWs t = true)
        | cons t' ts' =>
          show allWs (t ++ ',' :: joinComma (t' :: ts')) = false
          unfold allWs
          rw [List.all_append]
          have : (',' :: joinComma (t' :: ts')).all isWsChar = false := by
            unfold List.all
            rw [show isWsChar ',' = false from rfl]
            rfl
          rw [this, Bool.and_false]
      rw [if_neg (by rw [hnws]; exact Bool.false_ne_true)]
      rw [arityScan_join ts t 1 (fun u hu =>
        ((by simpa [wfTypeName] using h u hu) : allWs u = false ∧ wfScan u 0 = true).2)]
      rw [Nat.add_comm]
      rfl
  · intro s hs
    rw [tuple_arity_unfold, if_pos hs]

/-- C8 witness: a three-type list with nested generics gives arity 3, and a
whitespace-only interior gives arity 0. -/
theorem tuple_arity_computation_witness :
    tuple_arity_from_type_name (tupPre ++ joinComma
        ["U32".data, "Option<Vec<Symbol>>".data, "Map<U32, String>".data] ++ ['>'])
      = some 3
    ∧ tuple_arity_from_type_name (tupPre ++ "  ".data ++ ['>']) = some 0 :=
  ⟨tuple_arity_computation.1
      ["U32".data, "Option<Vec<Symbol>>".data, "Map<U32, String>".data] (by decide),
   tuple_arity_computation.2 "  ".data (by decide)⟩


-- ── C3: the execution record replaces the previous one on success ────────────

/-- Inversion of a successful `invoke_function`: both storage snapshots and
the argument conversion succeeded, the display came from the formatter, and
the record carries the function name, converted arguments, formatted result
and the two snapshots. -/
theorem invoke_function_ok {V S : Type} (dbgVal : V → Str)
    (tryFromVal : V → Except Str S) (function : Str) (parsed_args : List V)
    (storageBefore storageAfter : Except DebuggerError (List (Str × Str)))
    (invocation_result : Except (Except InvokeError InvokeError) (Except Str V))
    (display : Str) (record : ExecutionRecord S)
    (h : invoke_function dbgVal tryFromVal function parsed_args
          storageBefore storageAfter invocation_result = .ok (display, record)) :
    ∃ sb sa sc_args,
      storageBefore = .ok sb ∧ storageAfter = .ok sa
      ∧ collectScVals tryFromVal parsed_args = .ok sc_args
      ∧ (format_invocation_result dbgVal tryFromVal invocation_result).1 = .ok display
      ∧ record = ⟨function, sc_args,
          (format_invocation_result dbgVal tryFromVal invocation_result).2, sb, sa⟩ := by
  unfold invoke_function at h
  cases hsb : storageBefore with
  | error e => rw [hsb] at h; cases h
  | ok sb =>
    rw [hsb] at h
    cases hsc : collectScVals tryFromVal parsed_args with
    | error e => rw [hsc] at h; cases h
    | ok sc_args =>
      rw [hsc] at h
      cases hsa : storageAfter with
      | error e => rw [hsa] at h; cases h
      | ok sa =>
        rw [hsa] at h
        cases hfr : (format_invocation_result dbgVal tryFromVal invocation_result).1 with
        | error e => rw [hfr] at h; cases h
        | ok d =>
          rw [hfr] at h
          injection h with h
          injection h with h1 h2
          exact ⟨sb, sa, sc_args, rfl, rfl, rfl, by simp only [hfr, h1], h2.symm⟩

/-- Case characterisation of `execute`: the call either fails and returns
the executor unchanged, or succeeds with the display and state produced by a
successful `invoke_function`. -/
theorem execute_cases {V S : Type} (exec : ContractExecutor S)
    (function : Str) (exported : Except DebuggerError (List Str))
    (argsOutcome : Option (Except DebuggerError (List V)))
    (dbgVal : V → Str) (tryFromVal : V → Except Str S)
    (storageBefore storageAfter : Except DebuggerError (List (Str × Str)))
    (invocation_result : Except (Except InvokeError InvokeError) (Except Str V))
    (res : Except DebuggerError Str × ContractExecutor S)
    (h : exec.execute function exported argsOutcome dbgVal tryFromVal
          storageBefore storageAfter invocation_result = res) :
    (∃ e, res = (.error e, exec))
    ∨ (∃ display record parsed_args,
        invoke_function dbgVal tryFromVal function parsed_args
          storageBefore storageAfter invocation_result = .ok (display, record)
        ∧ res = (.ok display, { exec with last_execution := some record })) := by
  unfold ContractExecutor.execute at h
  split at h
  · exact Or.inl ⟨_, h.symm⟩
  · split at h
    · split at h
      · exact Or.inl ⟨_, h.symm⟩
      · split at h
        · exact Or.inl ⟨_, h.symm⟩
        · rename_i parsed_args hq hx display record hinv
          exact Or.inr ⟨display, record, parsed_args, hinv, h.symm⟩
    · exact Or.inl ⟨_, h.symm⟩

/-- C3: an `ExecutionRecord` is created per successful invocation attempt
and replaces the previous one. If `execute` returns `Ok`, the stored
`last_execution` afterwards is the record of this invocation, carrying the
storage-before and storage-after snapshots taken around the call and the
formatted result; if `execute` returns any error, the executor state — in
particular `last_execution` — is exactly what it was before the call. -/
theorem execute_updates_last_execution {V S : Type} (exec : ContractExecutor S)
    (function : Str) (exported : Except DebuggerError (List Str))
    (argsOutcome : Option (Except DebuggerError (List V)))
    (dbgVal : V → Str) (tryFromVal : V → Except Str S)
    (storageBefore storageAfter : Except DebuggerError (List (Str × Str)))
    (invocation_result : Except (Except InvokeError InvokeError) (Except Str V)) :
    (∀ display,
      (exec.execute function exported argsOutcome dbgVal tryFromVal
        storageBefore storageAfter invocation_result).1 = .ok display →
      ∃ sb sa sc_args,
        storageBefore = .ok sb ∧ storageAfter = .ok sa
        ∧ (exec.execute function exported argsOutcome dbgVal tryFromVal
            storageBefore storageAfter invocation_result).2.last_execution
          = some ⟨function, sc_args,
              (format_invocation_result dbgVal tryFromVal invocation_result).2, sb, sa⟩)
    ∧ (∀ e,
      (exec.execute function exported argsOutcome dbgVal tryFromVal
        storageBefore storageAfter invocation_result).1 = .error e →
      (exec.execute function exported argsOutcome dbgVal tryFromVal
        storageBefore storageAfter invocation_result).2 = exec) := by
  rcases execute_cases exec function exported argsOutcome dbgVal tryFromVal
      storageBefore storageAfter invocation_result _ rfl with
    ⟨e, hres⟩ | ⟨display, record, parsed_args, hinv, hres⟩
  · constructor
    · intro d hd
      rw [hres] at hd
      cases hd
    · intro e' he
      rw [hres]
  · constructor
    · intro d hd
      obtain ⟨sb, sa, sc_args, hsb, hsa, _, _, hrec⟩ :=
        invoke_function_ok dbgVal tryFromVal function parsed_args
          storageBefore storageAfter invocation_result display record hinv
      refine ⟨sb, sa, sc_args, hsb, hsa, ?_⟩
      rw [hres]
      show some record = _
      rw [hrec]
    · intro e' he
      rw [hres] at he
      cases he

/-- C3 witness: a successful concrete invocation stores the record of this
invocation, with its storage snapshots, in `last_execution`. -/
theorem execute_updates_last_execution_witness :
    ∃ sb sa sc_args,
      (Except.ok [] : Except DebuggerError (List (Str × Str))) = .ok sb
      ∧ (Except.ok [("k".data, "42".data)] : Except DebuggerError (List (Str × Str))) = .ok sa
      ∧ ((⟨none, 30⟩ : ContractExecutor Nat).execute "inc".data (.ok ["inc".data])
          none (fun n => natToStr n) (fun n => .ok n) (.ok [])
          (.ok [("k".data, "42".data)]) (.ok (.ok 42))).2.last_execution
        = some ⟨"inc".data, sc_args,
            (format_invocation_result (fun n => natToStr n) (fun n => .ok n)
              (.ok (.ok 42))).2, sb, sa⟩ :=
  (execute_updates_last_execution (⟨none, 30⟩ : ContractExecutor Nat) "inc".data
      (.ok ["inc".data]) none (fun n => natToStr n) (fun n => .ok n) (.ok [])
      (.ok [("k".data, "42".data)]) (.ok (.ok 42))).1 (natToStr 42) rfl
